import Mathlib

/-!
# QFC ledger core — shallow embedding and verification

A shallow embedding of the QFC repository's ledger/consensus/sharding core:
`src/blockchain/transaction.py`, `src/block.py`, `src/blockchain/shard.py`,
`src/blockchain/cross_shard_coordinator.py`, `src/blockchain/green_pow.py`,
`src/blockchain/green_consensus.py` (also `CarbonCreditMarket`, duplicated in
`carbon_market.py`), and `src/Blockchain.py`.

Modelling conventions:
* Python `float` amounts, fees, balances, credits and durations are modelled as
  exact rationals (`ℚ`); `0.01 * amount` becomes `amount / 100`.  No claim
  below depends on binary floating-point rounding.
* Python dictionaries are modelled as association lists keyed by `String`.
* `time.time()` timestamps and `random.choice` energy sources are passed in as
  explicit parameters; unbounded mining loops take explicit fuel.
* Exceptions are modelled with `Option`/`Except`: `none`/`.error` is an
  uncaught Python exception, `some`/`.ok` a normal return.
* SHA-256 is implemented concretely below (FIPS 180-4) over byte lists, so
  hash-dependent behaviour can be evaluated on concrete inputs.
-/

/-! ## SHA-256 over byte lists (bytes are `Nat` < 256) -/

/-- Truncate to a 32-bit word. -/
def u32 (n : Nat) : Nat := n % 4294967296

/-- 32-bit right rotation. -/
def rotr (n x : Nat) : Nat := u32 ((x >>> n) ||| (x <<< (32 - n)))

/-- SHA-256 `Ch` function. -/
def shaCh (x y z : Nat) : Nat := (x &&& y) ^^^ ((4294967295 ^^^ x) &&& z)

/-- SHA-256 `Maj` function. -/
def shaMaj (x y z : Nat) : Nat := (x &&& y) ^^^ (x &&& z) ^^^ (y &&& z)

/-- SHA-256 big sigma 0. -/
def bsig0 (x : Nat) : Nat := rotr 2 x ^^^ rotr 13 x ^^^ rotr 22 x

/-- SHA-256 big sigma 1. -/
def bsig1 (x : Nat) : Nat := rotr 6 x ^^^ rotr 11 x ^^^ rotr 25 x

/-- SHA-256 small sigma 0. -/
def ssig0 (x : Nat) : Nat := rotr 7 x ^^^ rotr 18 x ^^^ (x >>> 3)

/-- SHA-256 small sigma 1. -/
def ssig1 (x : Nat) : Nat := rotr 17 x ^^^ rotr 19 x ^^^ (x >>> 10)

/-- The 64 SHA-256 round constants. -/
def shaK : List Nat :=
  [1116352408, 1899447441, 3049323471, 3921009573, 961987163, 1508970993,
   2453635748, 2870763221, 3624381080, 310598401, 607225278, 1426881987,
   1925078388, 2162078206, 2614888103, 3248222580, 3835390401, 4022224774,
   264347078, 604807628, 770255983, 1249150122, 1555081692, 1996064986,
   2554220882, 2821834349, 2952996808, 3210313671, 3336571891, 3584528711,
   113926993, 338241895, 666307205, 773529912, 1294757372, 1396182291,
   1695183700, 1986661051, 2177026350, 2456956037, 2730485921, 2820302411,
   3259730800, 3345764771, 3516065817, 3600352804, 4094571909, 275423344,
   430227734, 506948616, 659060556, 883997877, 958139571, 1322822218,
   1537002063, 1747873779, 1955562222, 2024104815, 2227730452, 2361852424,
   2428436474, 2756734187, 3204031479, 3329325298]

/-- The eight-word SHA-256 working state. -/
structure H8 where
  a : Nat
  b : Nat
  c : Nat
  d : Nat
  e : Nat
  f : Nat
  g : Nat
  h : Nat
deriving DecidableEq

/-- The SHA-256 initial hash value. -/
def shaH0 : H8 :=
  ⟨1779033703, 3144134277, 1013904242, 2773480762,
   1359893119, 2600822924, 528734635, 1541459225⟩

/-- Pack bytes into big-endian 32-bit words, four at a time. -/
def bytesToWords : List Nat → List Nat
  | a :: b :: c :: d :: rest => (a * 16777216 + b * 65536 + c * 256 + d) :: bytesToWords rest
  | _ => []

/-- Index into a word list, defaulting to 0. -/
def wAt (w : List Nat) (i : Nat) : Nat := w.getD i 0

/-- Extend the message schedule `n` more words; the list holds the schedule
most-recent-first, so `W[t-2]` is index 1, `W[t-7]` index 6, `W[t-15]` index
14 and `W[t-16]` index 15. -/
def extendW : Nat → List Nat → List Nat
  | 0, w => w
  | n + 1, w =>
      extendW n (u32 (ssig1 (wAt w 1) + wAt w 6 + ssig0 (wAt w 14) + wAt w 15) :: w)

/-- The 64-word message schedule of one 64-byte block. -/
def schedule (block : List Nat) : List Nat :=
  (extendW 48 (bytesToWords block).reverse).reverse

/-- One SHA-256 round, on the precomputed `K[t] + W[t]`. -/
def shaRound (s : H8) (kw : Nat) : H8 :=
  let t1 := u32 (s.h + bsig1 s.e + shaCh s.e s.f s.g + kw)
  let t2 := u32 (bsig0 s.a + shaMaj s.a s.b s.c)
  ⟨u32 (t1 + t2), s.a, s.b, s.c, u32 (s.d + t1), s.e, s.f, s.g⟩

/-- Compress one 64-byte block into the running state. -/
def compress (s : H8) (block : List Nat) : H8 :=
  let kw := List.zipWith (fun k w => u32 (k + w)) shaK (schedule block)
  let t := kw.foldl shaRound s
  ⟨u32 (s.a + t.a), u32 (s.b + t.b), u32 (s.c + t.c), u32 (s.d + t.d),
   u32 (s.e + t.e), u32 (s.f + t.f), u32 (s.g + t.g), u32 (s.h + t.h)⟩

/-- Fold `compress` over `n` consecutive 64-byte blocks. -/
def foldBlocksN : Nat → H8 → List Nat → H8
  | 0, s, _ => s
  | n + 1, s, bs => foldBlocksN n (compress s (bs.take 64)) (bs.drop 64)

/-- A natural number as `n` big-endian bytes. -/
def beBytes : Nat → Nat → List Nat
  | 0, _ => []
  | n + 1, v => beBytes n (v / 256) ++ [v % 256]

/-- SHA-256 padding: append `0x80`, zero bytes to 56 mod 64, then the bit
length as eight big-endian bytes. -/
def shaPad (bs : List Nat) : List Nat :=
  let l := bs.length
  let k := (64 + 56 - (l + 1) % 64) % 64
  bs ++ [128] ++ List.replicate k 0 ++ beBytes 8 (8 * l)

/-- The SHA-256 digest of a byte list, as the eight-word final state.  The
padded message is always a whole number of 64-byte blocks. -/
def sha256 (bs : List Nat) : H8 :=
  let p := shaPad bs
  foldBlocksN (p.length / 64) shaH0 p

/-- A number below 16 as a lowercase hex digit (`0`-`9` are code points
48-57, `a`-`f` are 97-102). -/
def hx (n : Nat) : Char := Char.ofNat (if n < 10 then 48 + n else 87 + n)

/-- A 32-bit word as exactly eight lowercase hex characters. -/
def wordHex8 (w : Nat) : List Char :=
  [hx (w / 268435456 % 16), hx (w / 16777216 % 16), hx (w / 1048576 % 16),
   hx (w / 65536 % 16), hx (w / 4096 % 16), hx (w / 256 % 16),
   hx (w / 16 % 16), hx (w % 16)]

/-- `hashlib.sha256(...).hexdigest()`: the digest as 64 lowercase hex
characters. -/
def sha256hex (bs : List Nat) : String :=
  let s := sha256 bs
  String.mk (wordHex8 s.a ++ wordHex8 s.b ++ wordHex8 s.c ++ wordHex8 s.d ++
             wordHex8 s.e ++ wordHex8 s.f ++ wordHex8 s.g ++ wordHex8 s.h)

/-- `str.encode()` for the ASCII strings this development hashes. -/
def strBytes (s : String) : List Nat := s.data.map Char.toNat

/-! ## JSON rendering

The Python code hashes `json.dumps` output.  We reproduce the default
separators (`", "` and `": "`).  Numeric values (Python ints and floats) are
modelled as exact rationals and rendered as `num` when the denominator is 1
and `num/den` otherwise; no claim below depends on the concrete digit string
of a float, only on the rendering being a fixed deterministic function of the
fields. -/

/-- A JSON string literal (the strings in this development need no escapes). -/
def jsonQuote (s : String) : String := "\"" ++ s ++ "\""

/-- One `"key": value` JSON pair. -/
def jsonKV (k v : String) : String := jsonQuote k ++ ": " ++ v

/-- A rational as a JSON number token (see module note above). -/
def pyNumRepr (q : ℚ) : String :=
  if q.den = 1 then toString q.num else toString q.num ++ "/" ++ toString q.den

/-! ## Transaction (`src/blockchain/transaction.py`) -/

/-- A transaction record: the fields set by `Transaction.__init__`.
`fee = 0.01 * amount` is modelled exactly as `amount / 100`. -/
structure Transaction where
  sender : String
  recipient : String
  amount : ℚ
  asset : String
  timestamp : ℚ
  fee : ℚ
  signature : String
deriving DecidableEq

/-- `Transaction.__init__`: the timestamp (`time.time()`) is passed in
explicitly; `fee = 0.01 * amount`; `signature` starts empty. -/
def Transaction.create (sender recipient : String) (amount : ℚ) (asset : String)
    (timestamp : ℚ) : Transaction :=
  { sender, recipient, amount, asset, timestamp, fee := amount / 100, signature := "" }

/-- `Transaction.calculate_total_cost`: `amount + fee`. -/
def Transaction.calculate_total_cost (t : Transaction) : ℚ := t.amount + t.fee

/-- `json.dumps(tx.to_dict())` without `sort_keys`: dict insertion order is
the `to_dict` construction order `sender, recipient, amount, asset,
timestamp, fee, signature`. -/
def Transaction.toDictJson (t : Transaction) : String :=
  "\x7b" ++ jsonKV "sender" (jsonQuote t.sender) ++ ", " ++
  jsonKV "recipient" (jsonQuote t.recipient) ++ ", " ++
  jsonKV "amount" (pyNumRepr t.amount) ++ ", " ++
  jsonKV "asset" (jsonQuote t.asset) ++ ", " ++
  jsonKV "timestamp" (pyNumRepr t.timestamp) ++ ", " ++
  jsonKV "fee" (pyNumRepr t.fee) ++ ", " ++
  jsonKV "signature" (jsonQuote t.signature) ++ "\x7d"

/-- `json.dumps(tx.to_dict(), sort_keys=True)`: the same dict with keys in
sorted order `amount, asset, fee, recipient, sender, signature, timestamp`. -/
def Transaction.sortedDictJson (t : Transaction) : String :=
  "\x7b" ++ jsonKV "amount" (pyNumRepr t.amount) ++ ", " ++
  jsonKV "asset" (jsonQuote t.asset) ++ ", " ++
  jsonKV "fee" (pyNumRepr t.fee) ++ ", " ++
  jsonKV "recipient" (jsonQuote t.recipient) ++ ", " ++
  jsonKV "sender" (jsonQuote t.sender) ++ ", " ++
  jsonKV "signature" (jsonQuote t.signature) ++ ", " ++
  jsonKV "timestamp" (pyNumRepr t.timestamp) ++ "\x7d"

/-- `Transaction.calculate_hash`: SHA-256 hex digest of the sorted-keys JSON
of `to_dict()`. -/
def Transaction.calculate_hash (t : Transaction) : String :=
  sha256hex (strBytes t.sortedDictJson)

/-- `json.dumps([tx.to_dict() for tx in ts])` without `sort_keys`
(as in `GreenProofOfWork.verify`). -/
def txListJson (ts : List Transaction) : String :=
  "[" ++ String.intercalate ", " (ts.map Transaction.toDictJson) ++ "]"

/-! ## Block (`src/block.py`)

`src/blockchain/block.py`, the module `shard.py` and `Blockchain.py` import,
is not present in the sources; `src/block.py` defines the same `Block` class
(per the spec, §3/§4.2) and is used as the authority here.  The shard stores
each pending transaction's `to_dict()` in the block; since that dict carries
every transaction field, the block is modelled as holding the transactions
themselves. -/

/-- A block record: fields set by `Block.__init__` plus the `energy_source`
attribute `Blockchain.mine_block` assigns after mining. -/
structure Block where
  index : Nat
  transactions : List Transaction
  previous_hash : String
  nonce : Nat
  timestamp : ℚ
  hash : String
  energy_source : Option String
deriving DecidableEq

/-- `json.dumps({... 5 fields ...}, sort_keys=True)` that `Block.calculate_hash`
hashes: key order `index, nonce, previous_hash, timestamp, transactions`
(nested dicts also get sorted keys under `sort_keys=True`). -/
def blockHashJson (index : Nat) (ts : List Transaction) (previous_hash : String)
    (nonce : Nat) (timestamp : ℚ) : String :=
  "\x7b" ++ jsonKV "index" (toString index) ++ ", " ++
  jsonKV "nonce" (toString nonce) ++ ", " ++
  jsonKV "previous_hash" (jsonQuote previous_hash) ++ ", " ++
  jsonKV "timestamp" (pyNumRepr timestamp) ++ ", " ++
  jsonKV "transactions"
    ("[" ++ String.intercalate ", " (ts.map Transaction.sortedDictJson) ++ "]") ++
  "\x7d"

/-- `Block.calculate_hash`: SHA-256 hex digest over index, transactions,
previous_hash, nonce and timestamp (not signature-of-chain fields like
`energy_source`). -/
def Block.calculate_hash (b : Block) : String :=
  sha256hex (strBytes (blockHashJson b.index b.transactions b.previous_hash b.nonce b.timestamp))

/-- `Block.__init__`: nonce defaults to 0, `hash` is computed immediately from
the initial field values; `energy_source` does not exist yet. -/
def Block.create (index : Nat) (ts : List Transaction) (previous_hash : String)
    (nonce : Nat) (timestamp : ℚ) : Block :=
  { index, transactions := ts, previous_hash, nonce, timestamp,
    energy_source := none,
    hash := sha256hex (strBytes (blockHashJson index ts previous_hash nonce timestamp)) }

/-- Modelled from the spec: `Block.to_dict`, used by `Blockchain.mine_block`
as `json.dumps(new_block.to_dict())`.  The method lives in the missing
`src/blockchain/block.py`; per §3 a block's exposed fields are `index,
transactions, previous_hash, nonce, timestamp, hash`, rendered here in that
attribute order (dict insertion order, no `sort_keys`). -/
def blockToDictJson (b : Block) : String :=
  "\x7b" ++ jsonKV "index" (toString b.index) ++ ", " ++
  jsonKV "transactions"
    ("[" ++ String.intercalate ", " (b.transactions.map Transaction.toDictJson) ++ "]") ++ ", " ++
  jsonKV "previous_hash" (jsonQuote b.previous_hash) ++ ", " ++
  jsonKV "nonce" (toString b.nonce) ++ ", " ++
  jsonKV "timestamp" (pyNumRepr b.timestamp) ++ ", " ++
  jsonKV "hash" (jsonQuote b.hash) ++ "\x7d"

/-- A placeholder block for total list indexing (never reached on the states
this development evaluates). -/
def dummyBlock : Block :=
  { index := 0, transactions := [], previous_hash := "", nonce := 0,
    timestamp := 0, hash := "", energy_source := none }

/-! ## Shard (`src/blockchain/shard.py`)

The random `pygame` `position` vector is cosmetic rendering state (per the
spec, per-shard spatial positioning is out of scope) and carries no ledger
information; it is omitted. -/

/-- A shard: its chain and pending-transaction queue. -/
structure Shard where
  shard_id : Nat
  chain : List Block
  pending_transactions : List Transaction
deriving DecidableEq

/-- `Shard.__init__`: chain starts with the genesis block `Block(0, [], "0")`;
the genesis timestamp is passed in. -/
def Shard.init (shard_id : Nat) (genesisTs : ℚ) : Shard :=
  { shard_id, chain := [Block.create 0 [] "0" 0 genesisTs], pending_transactions := [] }

/-- `Shard.get_latest_block`: `chain[-1]`. -/
def Shard.get_latest_block (s : Shard) : Block := s.chain.getLastD dummyBlock

/-- `Shard.add_block`: unconditionally `self.chain.append(block)` — the source
performs no linkage validation and has no failure path. -/
def Shard.add_block (s : Shard) (b : Block) : Shard :=
  { s with chain := s.chain ++ [b] }

/-- `Shard.add_transaction`: append to the pending queue. -/
def Shard.add_transaction (s : Shard) (t : Transaction) : Shard :=
  { s with pending_transactions := s.pending_transactions ++ [t] }

/-- `Shard.create_block`: `None` when the pending queue is empty, otherwise a
new unmined block over the drained queue, referencing the current tail; the
block timestamp (`time.time()` at construction) is passed in.  The
`miner_address` parameter is accepted and unused, as in the source. -/
def Shard.create_block (s : Shard) (_miner_address : String) (ts : ℚ) :
    Option Block × Shard :=
  if s.pending_transactions.isEmpty then (none, s)
  else
    (some (Block.create s.chain.length s.pending_transactions s.get_latest_block.hash 0 ts),
     { s with pending_transactions := [] })

/-! ## Dictionary model

Python `dict[str, float]` tables (balances, carbon credits) as ordered
association lists: `alistGet` is `d.get(k, 0)`, `alistSet` is `d[k] = v`
(update in place, else append), `alistHas` is `k in d`. -/

/-- `d.get(k, 0)`. -/
def alistGet : List (String × ℚ) → String → ℚ
  | [], _ => 0
  | p :: rest, k => if p.1 = k then p.2 else alistGet rest k

/-- `d[k] = v`: replace the existing entry, else append. -/
def alistSet : List (String × ℚ) → String → ℚ → List (String × ℚ)
  | [], k, v => [(k, v)]
  | p :: rest, k, v => if p.1 = k then (k, v) :: rest else p :: alistSet rest k v

/-- `k in d`. -/
def alistHas : List (String × ℚ) → String → Bool
  | [], _ => false
  | p :: rest, k => p.1 = k || alistHas rest k

/-! ## GreenProofOfWork (`src/blockchain/green_pow.py`) -/

/-- The fixed energy-source enumeration. -/
def renewable_energy_sources : List String := ["solar", "wind", "hydro", "geothermal"]

/-- The consensus engine state set by `GreenProofOfWork.__init__` (defaults
`initial_difficulty=4, target_block_time=60, adjustment_interval=10`).
`difficulty` is a Python int, so ℤ; block times and credits are ℚ. -/
structure GreenPoW where
  difficulty : ℤ
  target_block_time : ℚ
  adjustment_interval : Nat
  block_times : List ℚ
  carbon_credits : List (String × ℚ)
deriving DecidableEq

/-- `GreenProofOfWork()` with the default constructor arguments. -/
def GreenPoW.init : GreenPoW :=
  { difficulty := 4, target_block_time := 60, adjustment_interval := 10,
    block_times := [], carbon_credits := [] }

/-- `GreenProofOfWork.calculate_hash`:
`hashlib.sha256(f"{block_data}{nonce}{energy_source}".encode()).hexdigest()`. -/
def GreenPoW.calculate_hash (block_data : String) (nonce : Nat)
    (energy_source : String) : String :=
  sha256hex (strBytes (block_data ++ toString nonce ++ energy_source))

/-- `"0" * difficulty` (the empty string for non-positive difficulty, as in
Python). -/
def difficultyTarget (d : ℤ) : List Char := List.replicate d.toNat '0'

/-- The mining loop of `GreenProofOfWork.mine`: try nonces from `nonce` up,
returning the first whose hash starts with the target; `fuel` bounds the
unbounded Python `while True` search, `none` meaning the loop has not yet
succeeded within `fuel` attempts. -/
def findNonce (target : List Char) (block_data energy_source : String) :
    Nat → Nat → Option (Nat × String)
  | 0, _ => none
  | fuel + 1, nonce =>
      let block_hash := GreenPoW.calculate_hash block_data nonce energy_source
      if target.isPrefixOf block_hash.data then some (nonce, block_hash)
      else findNonce target block_data energy_source fuel (nonce + 1)

/-- `sum(l)` for rationals. -/
def ratSum (l : List ℚ) : ℚ := l.foldl (· + ·) 0

/-- `sum(self.block_times) / len(self.block_times)`. -/
def meanOf (l : List ℚ) : ℚ := ratSum l / (l.length : ℚ)

/-- `GreenProofOfWork.adjust_difficulty`: once the window holds at least
`adjustment_interval` durations, compare their mean with the target block
time, move difficulty by one accordingly (decrement floored at 1), and clear
the window; otherwise do nothing. -/
def GreenPoW.adjust_difficulty (g : GreenPoW) : GreenPoW :=
  if g.adjustment_interval ≤ g.block_times.length then
    let average_block_time := meanOf g.block_times
    let d :=
      if average_block_time < g.target_block_time then g.difficulty + 1
      else if g.target_block_time < average_block_time then max 1 (g.difficulty - 1)
      else g.difficulty
    { g with difficulty := d, block_times := [] }
  else g

/-- The `multiplier` dict in `award_carbon_credits` (floats as exact
rationals). -/
def energyMultiplier : List (String × ℚ) :=
  [("solar", 12/10), ("wind", 11/10), ("hydro", 1), ("geothermal", 13/10)]

/-- `multiplier[energy_source]`: `none` is a Python `KeyError`. -/
def dictFind (m : List (String × ℚ)) (k : String) : Option ℚ :=
  (m.find? (fun p => p.1 == k)).map Prod.snd

/-- `GreenProofOfWork.award_carbon_credits`: add
`base_credit * multiplier[energy_source]` (base credit 1.0) to the miner's
entry; `none` models the `KeyError` on an unknown source. -/
def GreenPoW.award_carbon_credits (g : GreenPoW) (miner_address energy_source : String) :
    Option GreenPoW :=
  (dictFind energyMultiplier energy_source).map fun mult =>
    let credits := 1 * mult
    let cc := alistSet g.carbon_credits miner_address
      (alistGet g.carbon_credits miner_address + credits)
    { g with carbon_credits := cc }

/-- `GreenProofOfWork.mine`: choose an energy source (`random.choice` passed
in as an index), search nonces from 0 under the current difficulty, then
append the elapsed duration (passed in, for `time.time()` deltas) to the
window, retarget, and award carbon credits.  `none` models a search that has
not succeeded within `fuel` attempts. -/
def GreenPoW.mine (g : GreenPoW) (block_data miner_address : String)
    (esChoice : Fin 4) (duration : ℚ) (fuel : Nat) :
    Option ((Nat × String × String) × GreenPoW) :=
  let energy_source := renewable_energy_sources.getD esChoice "solar"
  match findNonce (difficultyTarget g.difficulty) block_data energy_source fuel 0 with
  | none => none
  | some (nonce, block_hash) =>
      let g1 := { g with block_times := g.block_times ++ [duration] }
      let g2 := g1.adjust_difficulty
      match g2.award_carbon_credits miner_address energy_source with
      | none => none
      | some g3 => some ((nonce, block_hash, energy_source), g3)

/-- `GreenProofOfWork.verify`: recompute the hash from
`json.dumps([tx.to_dict() for tx in transactions])`, the nonce and the energy
source; valid iff it equals the claimed hash, the claimed hash has the
required zero prefix under the current difficulty, and the source is in the
enumeration. -/
def GreenPoW.verify (g : GreenPoW) (transactions : List Transaction) (nonce : Nat)
    (block_hash : String) (energy_source : String) : Bool :=
  let block_data := txListJson transactions
  (GreenPoW.calculate_hash block_data nonce energy_source == block_hash)
    && (difficultyTarget g.difficulty).isPrefixOf block_hash.data
    && renewable_energy_sources.contains energy_source

/-! ## CarbonCreditMarket (`carbon_market.py`, duplicated in
`src/blockchain/green_consensus.py`) -/

/-- A market ledger entry (`{"type": ..., "buyer"/"seller": ..., "amount": ...,
"cost"/"revenue": ...}`). -/
structure MarketTx where
  mtype : String
  who : String
  amount : ℚ
  value : ℚ
deriving DecidableEq

/-- `CarbonCreditMarket.__init__`. -/
structure CarbonCreditMarket where
  credit_price : ℚ
  transactions : List MarketTx
deriving DecidableEq

/-- `CarbonCreditMarket()`. -/
def CarbonCreditMarket.init : CarbonCreditMarket := { credit_price := 10, transactions := [] }

/-- `CarbonCreditMarket.buy_credits`: when the buyer's credit balance covers
the amount, deduct it and record the trade; `none` models the Python
`KeyError` of `carbon_credits[buyer] -= amount` when the check passed but the
buyer has no entry (only reachable for non-positive amounts). -/
def CarbonCreditMarket.buy_credits (m : CarbonCreditMarket) (g : GreenPoW)
    (buyer : String) (amount : ℚ) : Option (Bool × CarbonCreditMarket × GreenPoW) :=
  if amount ≤ alistGet g.carbon_credits buyer then
    if alistHas g.carbon_credits buyer then
      let cost := amount * m.credit_price
      some (true,
        { m with transactions := m.transactions ++ [⟨"buy", buyer, amount, cost⟩] },
        { g with carbon_credits :=
            alistSet g.carbon_credits buyer (alistGet g.carbon_credits buyer - amount) })
    else none
  else some (false, m, g)

/-- `CarbonCreditMarket.sell_credits`: same check and deduction, recording a
sale. -/
def CarbonCreditMarket.sell_credits (m : CarbonCreditMarket) (g : GreenPoW)
    (seller : String) (amount : ℚ) : Option (Bool × CarbonCreditMarket × GreenPoW) :=
  if amount ≤ alistGet g.carbon_credits seller then
    if alistHas g.carbon_credits seller then
      let revenue := amount * m.credit_price
      some (true,
        { m with transactions := m.transactions ++ [⟨"sell", seller, amount, revenue⟩] },
        { g with carbon_credits :=
            alistSet g.carbon_credits seller (alistGet g.carbon_credits seller - amount) })
    else none
  else some (false, m, g)

/-! ## Ledger (`src/Blockchain.py`) and coordinator
(`src/blockchain/cross_shard_coordinator.py`)

The `Blockchain` object owns the shard list, the QFC asset table, the
consensus engine and the coordinator; the coordinator holds the same shard
list, so both are modelled as operations on one `QFCState`. -/

/-- The `Blockchain.__init__` state: `num_shards` shards, the
`assets["QFC"]` table (`total_supply` constant and balance dict), the
consensus engine state, the market, and the `GreenConsensus` reward
constants `block_reward = 50`, `reward_halving_interval = 210000`. -/
structure QFCState where
  num_shards : Nat
  difficulty : ℤ
  shards : List Shard
  total_supply : Nat
  balances : List (String × ℚ)
  pow : GreenPoW
  market : CarbonCreditMarket
  block_reward : Nat
  reward_halving_interval : Nat
deriving DecidableEq

/-- `Blockchain(num_shards, difficulty)`: fresh shards (all genesis
timestamps passed in), empty balances, default consensus state. -/
def Blockchain.init (num_shards : Nat) (difficulty : ℤ) (genesisTs : ℚ) : QFCState :=
  { num_shards, difficulty,
    shards := (List.range num_shards).map (fun i => Shard.init i genesisTs),
    total_supply := 1000000000, balances := [],
    pow := GreenPoW.init, market := CarbonCreditMarket.init,
    block_reward := 50, reward_halving_interval := 210000 }

/-- The `i`-th shard of the state (total; states keep `shard_id = position`). -/
def shardAt (s : QFCState) (i : Nat) : Shard :=
  s.shards.getD i (Shard.init 0 0)

/-- Replace the `i`-th shard (Python mutates the shared shard object). -/
def setShard (s : QFCState) (i : Nat) (sh : Shard) : QFCState :=
  { s with shards := s.shards.set i sh }

/-- `int(c, 16)` for one character; `none` is the Python `ValueError`. -/
def hexVal (c : Char) : Option Nat :=
  if '0' ≤ c ∧ c ≤ '9' then some (c.toNat - 48)
  else if 'a' ≤ c ∧ c ≤ 'f' then some (c.toNat - 87)
  else if 'A' ≤ c ∧ c ≤ 'F' then some (c.toNat - 55)
  else none

/-- `CrossShardCoordinator.get_shard_for_address`:
`int(address[0], 16) % len(self.shards)`, as the shard index; `none` models
the `IndexError`/`ValueError`/`ZeroDivisionError` on an empty address, a
non-hex first character, or no shards. -/
def get_shard_for_address (num_shards : Nat) (address : String) : Option Nat :=
  if num_shards = 0 then none
  else
    match address.data with
    | [] => none
    | c :: _ => (hexVal c).map (· % num_shards)

/-- `Blockchain.get_qfc_balance`: `assets["QFC"]["balances"].get(address, 0)`. -/
def get_qfc_balance (s : QFCState) (address : String) : ℚ :=
  alistGet s.balances address

/-- `Blockchain.verify_transaction`: positive amount and a sender balance
covering `calculate_total_cost()`. -/
def Blockchain.verify_transaction (s : QFCState) (t : Transaction) : Bool :=
  if t.amount ≤ 0 then false
  else if get_qfc_balance s t.sender < t.calculate_total_cost then false
  else true

/-- `Blockchain.update_qfc_balances`: read both balances, and when the sender
balance covers the total cost, write `sender -= total_cost` then
`recipient += amount` (the recipient balance having been read before the
sender write, as in the source). -/
def Blockchain.update_qfc_balances (s : QFCState) (t : Transaction) : QFCState :=
  let sender_balance := get_qfc_balance s t.sender
  let recipient_balance := get_qfc_balance s t.recipient
  let total_cost := t.calculate_total_cost
  if total_cost ≤ sender_balance then
    let b1 := alistSet s.balances t.sender (sender_balance - total_cost)
    let b2 := alistSet b1 t.recipient (recipient_balance + t.amount)
    { s with balances := b2 }
  else s

/-- `Blockchain.add_transaction`: validate, then enqueue on the sender's
shard and update balances; `False` with no mutation on validation failure.
`none` models the uncaught routing exception on the accept path (sender
address with no hex first character). -/
def Blockchain.add_transaction (s : QFCState) (t : Transaction) :
    Option (QFCState × Bool) :=
  if Blockchain.verify_transaction s t then
    match get_shard_for_address s.num_shards t.sender with
    | none => none
    | some i =>
        let s1 := setShard s i ((shardAt s i).add_transaction t)
        some (Blockchain.update_qfc_balances s1 t, true)
  else some (s, false)

/-- `CrossShardCoordinator.prepare_transaction`: the source is a stub that
unconditionally returns `True`. -/
def prepare_transaction (_t : Transaction) : Bool := true

/-- `CrossShardCoordinator.commit_transaction`: enqueue the transaction on
both shards' pending lists and return `True`; balances are never read or
written. -/
def commit_transaction (s : QFCState) (t : Transaction) (src dst : Nat) :
    QFCState × Bool :=
  let s1 := setShard s src ((shardAt s src).add_transaction t)
  let s2 := setShard s1 dst ((shardAt s1 dst).add_transaction t)
  (s2, true)

/-- `CrossShardCoordinator.abort_transaction`: the source is a stub that
unconditionally returns `False` and changes nothing. -/
def abort_transaction (s : QFCState) (_t : Transaction) : QFCState × Bool :=
  (s, false)

/-- `CrossShardCoordinator.initiate_cross_shard_transaction`: route sender
and recipient; same shard goes straight to that shard's queue (the Python
method then returns `None`, modelled `none` in the inner option); different
shards run prepare (always true) then commit.  The outer `none` models the
routing exceptions. -/
def initiate_cross_shard_transaction (s : QFCState) (t : Transaction) :
    Option (QFCState × Option Bool) :=
  match get_shard_for_address s.num_shards t.sender,
        get_shard_for_address s.num_shards t.recipient with
  | some i, some j =>
      if i = j then
        some (setShard s i ((shardAt s i).add_transaction t), none)
      else if prepare_transaction t then
        let r := commit_transaction s t i j
        some (r.1, some r.2)
      else
        let r := abort_transaction s t
        some (r.1, some r.2)
  | _, _ => none

/-! ## GreenConsensus (`src/blockchain/green_consensus.py`) -/

/-- The reward expression of `GreenConsensus.reward_miner`:
`max(1, block_reward // (2 ** (current_block // reward_halving_interval)))`. -/
def rewardAmount (block_reward reward_halving_interval current_block : Nat) : Nat :=
  max 1 (block_reward / 2 ^ (current_block / reward_halving_interval))

/-- `GreenConsensus.reward_miner` as written: its first statement evaluates
`len(self.blockchain.get_latest_block().chain)`, but `get_latest_block()`
returns a `Block`, which has no `chain` attribute, so the call raises
`AttributeError` unconditionally before any reward is computed or enqueued. -/
def GreenConsensus.reward_miner (_s : QFCState) (_miner_address : String) :
    Option QFCState := none

/-- The evident intent of `reward_miner` (reading `current_block` as the
length of shard 0's chain, which `get_latest_block` draws from): compute the
halved reward and submit `Transaction("Network", miner, reward)` through
`add_transaction`. -/
def GreenConsensus.reward_miner_intended (s : QFCState) (miner_address : String)
    (ts : ℚ) : Option (QFCState × Bool) :=
  let current_block := (shardAt s 0).chain.length
  let reward := rewardAmount s.block_reward s.reward_halving_interval current_block
  Blockchain.add_transaction s (Transaction.create "Network" miner_address reward "QFC" ts)

/-- `Blockchain.mine_block`: route the miner to a shard, build a candidate,
mine it through the consensus engine, stamp nonce/hash/energy source, append
to the shard, then call `reward_miner` — which (see above) raises, so the
successful-mining path never returns normally.  The inner `none` is the
Python `None` when nothing was pending. -/
def Blockchain.mine_block (s : QFCState) (miner_address : String) (esChoice : Fin 4)
    (duration ts : ℚ) (fuel : Nat) : Option (QFCState × Option Block) :=
  match get_shard_for_address s.num_shards miner_address with
  | none => none
  | some i =>
      match (shardAt s i).create_block miner_address ts with
      | (none, _) => some (s, none)
      | (some nb, sh2) =>
          match s.pow.mine (blockToDictJson nb) miner_address esChoice duration fuel with
          | none => none
          | some ((nonce, block_hash, energy_source), pow2) =>
              let nb2 := { nb with nonce := nonce, hash := block_hash,
                                   energy_source := some energy_source }
              let s2 := { setShard s i (sh2.add_block nb2) with pow := pow2 }
              match GreenConsensus.reward_miner s2 miner_address with
              | none => none
              | some s3 => some (s3, some nb2)

/-! ## Signature verification (`Transaction.verify_signature`)

The RSA library call (`public_key.verify`) is external to the repository and
is abstracted as a boolean oracle `rsaValid sigBytes message`: `true` models
the library accepting, `false` models it raising `InvalidSignature` (which the
source catches and converts to `False`).  What the source does *not* catch is
the `ValueError` that `bytes.fromhex(self.signature)` raises on malformed hex,
so that exception escapes. -/

/-- `bytes.fromhex`: pairs of hex digits, spaces allowed between pairs;
`none` is the Python `ValueError`. -/
def bytesFromHex : List Char → Option (List Nat)
  | [] => some []
  | ' ' :: rest => bytesFromHex rest
  | a :: b :: rest =>
      match hexVal a, hexVal b, bytesFromHex rest with
      | some x, some y, some tl => some ((16 * x + y) :: tl)
      | _, _, _ => none
  | _ => none

/-- `Transaction.verify_signature`: decode the hex signature (an uncaught
`ValueError` on malformed hex), then ask the RSA oracle about the recomputed
transaction hash; `InvalidSignature` is caught and returned as `false`. -/
def Transaction.verify_signature (rsaValid : List Nat → String → Bool)
    (t : Transaction) : Except String Bool :=
  match bytesFromHex t.signature.data with
  | none => Except.error "ValueError"
  | some sigBytes => Except.ok (rsaValid sigBytes t.calculate_hash)

/-! ## Concrete instances the claim theorems evaluate -/

/-- C1 scenario: two shards, sender `"0a"` on shard 0 with balance 100,
recipient `"1b"` on shard 1 with balance 0. -/
def c1State : QFCState :=
  { Blockchain.init 2 4 0 with balances := [("0a", 100), ("1b", 0)] }

/-- C1 scenario: a cross-shard transfer of 10 QFC. -/
def c1Tx : Transaction := Transaction.create "0a" "1b" 10 "QFC" 0

/-- The state after the coordinator processes the C1 transaction. -/
def c1Res : QFCState :=
  ((initiate_cross_shard_transaction c1State c1Tx).map Prod.fst).getD c1State

/-- C3 scenario: the one pending transaction. -/
def c3Tx : Transaction := Transaction.create "0a" "1b" 10 "QFC" 0

/-- C3 scenario: a fresh shard holding that pending transaction. -/
def c3Shard : Shard := (Shard.init 0 0).add_transaction c3Tx

/-- C3 scenario: an engine with difficulty 0 (a legal constructor argument),
so the nonce search succeeds immediately and the prefix condition is trivially
satisfied — isolating `verify`'s hash-recomputation mismatch. -/
def c3Pow : GreenPoW := { GreenPoW.init with difficulty := 0 }

/-- The candidate block `Shard.create_block` builds for the C3 scenario. -/
def c3Candidate : Block := ((c3Shard.create_block "0miner" 0).1).getD dummyBlock

/-- Mining the candidate the way `Blockchain.mine_block` does: the engine is
given `json.dumps(new_block.to_dict())` — the whole block object — as
`block_data`. -/
def c3Mine : Option ((Nat × String × String) × GreenPoW) :=
  c3Pow.mine (blockToDictJson c3Candidate) "0miner" (0 : Fin 4) 1 5

/-- The C3 mining outcome (nonce, hash, energy source, engine state). -/
def c3MineRes : (Nat × String × String) × GreenPoW :=
  c3Mine.getD ((0, "", ""), c3Pow)

/-- C5 scenario: a fresh two-shard blockchain (all balances zero, including
the `"Network"` reward source). -/
def c5State : QFCState := Blockchain.init 2 4 0

/-- C6 scenario: a fresh shard (genesis only). -/
def c6Shard : Shard := Shard.init 0 0

/-- C6 scenario: a block that extends nothing — `previous_hash` is `"X"`
(no SHA-256 digest, which always has 64 characters) and `index` is 5, not the
chain length 1. -/
def c6Bad : Block := Block.create 5 [] "X" 0 0

/-- C7 scenario: a transaction whose signature field holds malformed hex. -/
def c7Tx : Transaction :=
  { Transaction.create "a" "b" 1 "QFC" 0 with signature := "zz" }

/-- C7 scenario: the same transaction with well-formed signature bytes. -/
def c7TxHex : Transaction :=
  { Transaction.create "a" "b" 1 "QFC" 0 with signature := "00ff" }

/-- C8 witness scenario: a shard with one pending transaction. -/
def c8Shard : Shard :=
  (Shard.init 3 0).add_transaction (Transaction.create "0a" "1b" 5 "QFC" 0)

/-- The candidate block of the C8 witness scenario. -/
def c8Block : Block := ((c8Shard.create_block "0m" 7).1).getD dummyBlock

/-- The shard state after draining, in the C8 witness scenario. -/
def c8After : Shard := (c8Shard.create_block "0m" 7).2

/-- C9 witness scenario: one funded account. -/
def c9State : QFCState :=
  { Blockchain.init 2 4 0 with balances := [("0a", 100)] }

/-- C9 witness scenario: a non-positive-amount transaction. -/
def c9Tx : Transaction := Transaction.create "0a" "1b" (-5) "QFC" 0

/-- C10 witness scenario: an engine whose miner `"mX"` holds 2 credits. -/
def c10G : GreenPoW := { GreenPoW.init with carbon_credits := [("mX", 2)] }

/-- The C10 witness buy: `"mX"` buys out 1 credit. -/
def c10Buy : Option (Bool × CarbonCreditMarket × GreenPoW) :=
  CarbonCreditMarket.init.buy_credits c10G "mX" 1

/-- The engine state after the C10 witness buy. -/
def c10G2 : GreenPoW :=
  (c10Buy.getD (false, CarbonCreditMarket.init, c10G)).2.2

/-- The market state after the C10 witness buy. -/
def c10M2 : CarbonCreditMarket :=
  (c10Buy.getD (false, CarbonCreditMarket.init, c10G)).2.1

/-- The engine state after awarding solar credits to `"mX"`. -/
def c10GA : GreenPoW :=
  (c10G.award_carbon_credits "mX" "solar").getD c10G

/-- C4 witness scenario: a full window (interval 2) of durations 1 and 2,
mean 3/2, below the target 60. -/
def c4G : GreenPoW :=
  { difficulty := 4, target_block_time := 60, adjustment_interval := 2,
    block_times := [1, 2], carbon_credits := [] }

/-! ## Theorems -/

set_option maxRecDepth 40000

example : sha256hex (strBytes "abc") =
    "ba7816bf8f01cfea414140de5dae2223b00361a396177a9cb410ff61f20015ad" := by
  rfl

example : sha256hex (strBytes "") =
    "e3b0c44298fc1c149afbf4c8996fb92427ae41e4649b934ca495991b7852b855" := by
  rfl

/-- Every hex digest has exactly 64 characters. -/
theorem sha256hex_length (bs : List Nat) : (sha256hex bs).length = 64 := by
  simp [sha256hex, String.length, wordHex8]

/-- Dictionary read-after-write: setting key `k` leaves every other key's
value unchanged and makes `k` read back the written value. -/
theorem alistGet_set (m : List (String × ℚ)) (k : String) (v : ℚ) (a : String) :
    alistGet (alistSet m k v) a = if a = k then v else alistGet m a := by
  induction m with
  | nil =>
      simp only [alistSet, alistGet]
      by_cases h : a = k
      · simp [h]
      · rw [if_neg (fun h2 => h h2.symm), if_neg h]
  | cons p rest ih =>
      simp only [alistSet]
      by_cases hpk : p.1 = k
      · simp only [if_pos hpk, alistGet]
        by_cases hak : a = k
        · rw [if_pos hak.symm, if_pos hak]
        · rw [if_neg (fun h2 => hak h2.symm), if_neg hak,
            if_neg (fun h2 => hak (hpk.symm.trans h2).symm)]
      · simp only [if_neg hpk, alistGet]
        by_cases hpa : p.1 = a
        · rw [if_pos hpa, if_neg (fun h2 => hpk (hpa.trans h2)), if_pos hpa]
        · rw [if_neg hpa, if_neg hpa, ih]

/-- C1: the claim says a committed cross-shard transaction decreases the
sender's balance by `total_cost()` and increases the recipient's by `amount`,
and an abort reports failure with balances unchanged.  On the source, prepare
is a stub returning `True` (abort is unreachable) and commit merely enqueues
the transaction on both shards: on the concrete two-shard scenario the
coordinator reports commit (`True`), yet both balances are exactly as before
— the sender's balance is not decreased by the (non-zero) total cost. -/
theorem C1_cross_shard_commit_moves_no_balance :
    (initiate_cross_shard_transaction c1State c1Tx).map Prod.snd =
      some (some true) ∧
    c1Res.balances = c1State.balances ∧
    get_qfc_balance c1Res "0a" = 100 ∧
    get_qfc_balance c1Res "1b" = 0 ∧
    get_qfc_balance c1State "0a" - c1Tx.calculate_total_cost ≠
      get_qfc_balance c1Res "0a" ∧
    (shardAt c1Res 0).pending_transactions = [c1Tx] ∧
    (shardAt c1Res 1).pending_transactions = [c1Tx] := by
  refine ⟨by rfl, by rfl, by with_unfolding_all rfl, by with_unfolding_all rfl,
    by with_unfolding_all decide, by rfl, by rfl⟩

/-- C2: the claim says routing hashes the whole address
(`stable_hash(address) mod num_shards`).  The source computes
`int(address[0], 16) % num_shards`: the route is a function of the first
character alone — any two addresses sharing a first character land on the
same shard no matter how the rest differs — and with 4 shards the addresses
`"0a"`, `"0fffffffffffff"` and `"4a"` all collide on shard 0. -/
theorem C2_routing_uses_only_first_character :
    (∀ (n : Nat) (c : Char) (r1 r2 : List Char),
       get_shard_for_address n (String.mk (c :: r1)) =
       get_shard_for_address n (String.mk (c :: r2))) ∧
    get_shard_for_address 4 "0a" = some 0 ∧
    get_shard_for_address 4 "0fffffffffffff" = some 0 ∧
    get_shard_for_address 4 "4a" = some 0 ∧
    get_shard_for_address 4 "2a" = some 2 := by
  exact ⟨fun n c r1 r2 => rfl, by decide, by decide, by decide, by decide⟩

/-- C3: the claim says `verify` accepts every block produced by `mine`.  In
the source, `Blockchain.mine_block` feeds `mine` the JSON of the whole block
object (`json.dumps(new_block.to_dict())`), while `verify` recomputes the
digest from the transactions-only JSON (`json.dumps([tx.to_dict() ...])`);
the two preimages differ, so the digests disagree.  Concretely: at difficulty
0 (so the prefix check is vacuous and the engine state cannot mask the
mismatch) mining the one-transaction candidate succeeds at nonce 0 with
energy source `"solar"`, yet `verify` on the block's transaction set with
that nonce, hash and energy source returns `false`. -/
theorem C3_verify_rejects_block_mined_from_block_json :
    c3Mine = some c3MineRes ∧
    c3MineRes.1.1 = 0 ∧
    c3MineRes.1.2.2 = "solar" ∧
    GreenPoW.verify c3MineRes.2 c3Shard.pending_transactions
      c3MineRes.1.1 c3MineRes.1.2.1 c3MineRes.1.2.2 = false ∧
    blockToDictJson c3Candidate ≠ txListJson c3Shard.pending_transactions := by
  refine ⟨rfl, by with_unfolding_all decide, by with_unfolding_all decide,
    by with_unfolding_all decide, by with_unfolding_all decide⟩

/-- C4: difficulty retargeting as claimed — when the window holds at least
`adjustment_interval` durations, the mean is compared with the target block
time: difficulty is incremented by exactly 1 when the mean is below the
target, set to `max 1 (difficulty - 1)` when above (so a decrement never takes
it below 1), and the window is emptied, nothing else changing; with fewer
durations than the interval, the whole state is unchanged.  The hypothesis
`0 < adjustment_interval` excludes the one state (interval 0, empty window)
where the Python mean would divide by zero. -/
theorem C4_adjust_difficulty_retargets (g : GreenPoW)
    (_hN : 0 < g.adjustment_interval) :
    (g.adjustment_interval ≤ g.block_times.length →
       g.adjust_difficulty.block_times = [] ∧
       (meanOf g.block_times < g.target_block_time →
          g.adjust_difficulty.difficulty = g.difficulty + 1) ∧
       (g.target_block_time < meanOf g.block_times →
          g.adjust_difficulty.difficulty = max 1 (g.difficulty - 1) ∧
          1 ≤ g.adjust_difficulty.difficulty) ∧
       g.adjust_difficulty.target_block_time = g.target_block_time ∧
       g.adjust_difficulty.adjustment_interval = g.adjustment_interval ∧
       g.adjust_difficulty.carbon_credits = g.carbon_credits) ∧
    (g.block_times.length < g.adjustment_interval → g.adjust_difficulty = g) := by
  constructor
  · intro hlen
    unfold GreenPoW.adjust_difficulty
    rw [if_pos hlen]
    refine ⟨rfl, fun hm => ?_, fun hm => ?_, rfl, rfl, rfl⟩
    · show (if meanOf g.block_times < g.target_block_time then g.difficulty + 1
        else if g.target_block_time < meanOf g.block_times then max 1 (g.difficulty - 1)
        else g.difficulty) = g.difficulty + 1
      rw [if_pos hm]
    · have hnot : ¬ meanOf g.block_times < g.target_block_time := lt_asymm hm
      constructor
      · show (if meanOf g.block_times < g.target_block_time then g.difficulty + 1
          else if g.target_block_time < meanOf g.block_times then max 1 (g.difficulty - 1)
          else g.difficulty) = max 1 (g.difficulty - 1)
        rw [if_neg hnot, if_pos hm]
      · show (1 : ℤ) ≤ (if meanOf g.block_times < g.target_block_time then g.difficulty + 1
          else if g.target_block_time < meanOf g.block_times then max 1 (g.difficulty - 1)
          else g.difficulty)
        rw [if_neg hnot, if_pos hm]
        exact le_max_left 1 _
  · intro hlt
    unfold GreenPoW.adjust_difficulty
    rw [if_neg (by omega)]

/-- C4 witness: a window of two durations (interval 2) whose mean 3/2 is
below the target 60, so retargeting raises the difficulty from 4 to 5 and
empties the window. -/
theorem C4_adjust_difficulty_retargets_witness :
    c4G.adjust_difficulty.difficulty = c4G.difficulty + 1 ∧
    c4G.adjust_difficulty.block_times = [] := by
  have h := (C4_adjust_difficulty_retargets c4G (by decide)).1 (by decide)
  exact ⟨h.2.1 (by with_unfolding_all decide), h.1⟩

/-- C5: the claim says each successful mine computes the halved reward and
enqueues a reward transaction from the reserved network address.  The halving
arithmetic of the source (`max(1, 50 // 2 ** (blocks // 210000))`) does yield
50, 25, 12 at blocks 0, 210000, 420000 — but no reward transaction can ever
be enqueued: `reward_miner` first evaluates
`len(self.blockchain.get_latest_block().chain)`, and `get_latest_block()`
returns a `Block`, which has no `chain` attribute, so the method raises
`AttributeError` (modelled `none`); and even reading the block count the
intended way, `add_transaction` rejects the reward transaction because the
`"Network"` sender has balance 0, below `total_cost()`. -/
theorem C5_reward_miner_crashes_and_reward_rejected :
    GreenConsensus.reward_miner c5State "0miner" = none ∧
    rewardAmount 50 210000 0 = 50 ∧
    rewardAmount 50 210000 210000 = 25 ∧
    rewardAmount 50 210000 420000 = 12 ∧
    GreenConsensus.reward_miner_intended c5State "0miner" 0 = some (c5State, false) := by
  exact ⟨rfl, by decide, by decide, by decide, by with_unfolding_all rfl⟩

/-- C6: the claim says `append_block` fails with `ChainLinkageError` on a
block whose `previous_hash` or `index` does not extend the tail.  The source's
`Shard.add_block` is an unconditional `chain.append(block)` with no failure
path: appending a block with `previous_hash = "X"` and `index = 5` to a fresh
shard succeeds, after which the chain violates both linkage invariants
(`chain[1].previous_hash ≠ chain[0].hash` and `chain[1].index ≠ 1`). -/
theorem C6_add_block_accepts_unlinked_blocks :
    (∀ (s : Shard) (b : Block),
       (s.add_block b).chain = s.chain ++ [b] ∧
       (s.add_block b).pending_transactions = s.pending_transactions ∧
       (s.add_block b).shard_id = s.shard_id) ∧
    c6Bad.previous_hash ≠ c6Shard.get_latest_block.hash ∧
    c6Bad.index ≠ c6Shard.chain.length ∧
    (c6Shard.add_block c6Bad).chain.getLastD dummyBlock = c6Bad ∧
    ((c6Shard.add_block c6Bad).chain.getD 1 dummyBlock).previous_hash ≠
      ((c6Shard.add_block c6Bad).chain.getD 0 dummyBlock).hash ∧
    ((c6Shard.add_block c6Bad).chain.getD 1 dummyBlock).index ≠ 1 := by
  refine ⟨fun s b => ⟨rfl, rfl, rfl⟩, by with_unfolding_all decide, by decide,
    by with_unfolding_all rfl, by with_unfolding_all decide, by decide⟩

/-- C7: the claim says signature verification returns false and never raises
on malformed signature bytes.  The source catches only `InvalidSignature`;
`bytes.fromhex(self.signature)` runs inside the `try` but its `ValueError` on
non-hex input is not caught, so verifying a transaction whose signature field
is `"zz"` raises (for every behaviour of the RSA library), while well-formed
signatures do get the boolean outcome of the cryptographic check. -/
theorem C7_verify_signature_raises_on_malformed_hex :
    (∀ rsaValid, Transaction.verify_signature rsaValid c7Tx =
       Except.error "ValueError") ∧
    Transaction.verify_signature (fun _ _ => false) c7TxHex = Except.ok false ∧
    Transaction.verify_signature (fun _ _ => true) c7TxHex = Except.ok true := by
  exact ⟨fun rsaValid => rfl, rfl, rfl⟩

/-- A Boolean emptiness check agrees with equality to the empty list. -/
theorem list_isEmpty_iff {α : Type} (l : List α) : l.isEmpty = true ↔ l = [] := by
  cases l <;> simp [List.isEmpty]

/-- C8: building a candidate returns no candidate (not an error) on an empty
pending queue; on a non-empty queue it returns an unmined block whose
`previous_hash` is the tail's hash, whose `index` is the chain length and
whose transaction list is exactly the pending queue in insertion order, and
it leaves the queue empty and the chain untouched — nothing is dropped or
duplicated. -/
theorem C8_create_block_drains_queue (s : Shard) (m : String) (ts : ℚ) :
    (s.pending_transactions = [] → s.create_block m ts = (none, s)) ∧
    (s.pending_transactions ≠ [] → (s.create_block m ts).1.isSome = true) ∧
    (∀ b s2, s.create_block m ts = (some b, s2) →
       b.previous_hash = s.get_latest_block.hash ∧
       b.index = s.chain.length ∧
       b.transactions = s.pending_transactions ∧
       b.nonce = 0 ∧
       s2.pending_transactions = [] ∧
       s2.chain = s.chain ∧
       s2.shard_id = s.shard_id) := by
  by_cases h : s.pending_transactions.isEmpty
  · have he := (list_isEmpty_iff s.pending_transactions).mp h
    refine ⟨fun _ => ?_, fun hne => absurd he hne, fun b s2 heq => ?_⟩
    · unfold Shard.create_block
      rw [if_pos h]
    · unfold Shard.create_block at heq
      rw [if_pos h] at heq
      exact absurd heq (by simp)
  · have hne : s.pending_transactions ≠ [] := fun he => by
      rw [(list_isEmpty_iff s.pending_transactions).mpr he] at h
      exact h rfl
    refine ⟨fun he => absurd he hne, fun _ => ?_, fun b s2 heq => ?_⟩
    · unfold Shard.create_block
      rw [if_neg h]
      rfl
    · unfold Shard.create_block at heq
      rw [if_neg h] at heq
      rw [Prod.mk.injEq] at heq
      obtain ⟨h1, h2⟩ := heq
      injection h1 with hb
      subst hb
      subst h2
      exact ⟨rfl, rfl, rfl, rfl, rfl, rfl, rfl⟩

/-- C8 witness: draining a shard holding one pending transaction yields a
candidate with the claimed linkage, the queue left empty. -/
theorem C8_create_block_drains_queue_witness :
    c8Shard.pending_transactions ≠ [] ∧
    c8Block.previous_hash = c8Shard.get_latest_block.hash ∧
    c8Block.index = c8Shard.chain.length ∧
    c8Block.transactions = c8Shard.pending_transactions ∧
    c8Block.nonce = 0 ∧
    c8After.pending_transactions = [] := by
  have hne : c8Shard.pending_transactions ≠ [] := by
    intro h
    exact absurd (congrArg List.length h) (by with_unfolding_all decide)
  have heq : c8Shard.create_block "0m" 7 = (some c8Block, c8After) := by
    with_unfolding_all rfl
  have h := (C8_create_block_drains_queue c8Shard "0m" 7).2.2 c8Block c8After heq
  exact ⟨hne, h.1, h.2.1, h.2.2.1, h.2.2.2.1, h.2.2.2.2.1⟩

/-- A successful `verify_transaction` means a positive amount and a sender
balance covering the total cost. -/
theorem verify_transaction_true (s : QFCState) (t : Transaction)
    (hv : Blockchain.verify_transaction s t = true) :
    0 < t.amount ∧ t.calculate_total_cost ≤ get_qfc_balance s t.sender := by
  unfold Blockchain.verify_transaction at hv
  by_cases h0 : t.amount ≤ 0
  · rw [if_pos h0] at hv
    exact absurd hv (by simp)
  · rw [if_neg h0] at hv
    by_cases h1 : get_qfc_balance s t.sender < t.calculate_total_cost
    · rw [if_pos h1] at hv
      exact absurd hv (by simp)
    · exact ⟨lt_of_not_le h0, le_of_not_lt h1⟩

/-- `update_qfc_balances` keeps every balance non-negative when the amount is
positive: the sender write is guarded by the sufficiency check, the recipient
write only adds. -/
theorem update_qfc_balances_nonneg (s : QFCState) (t : Transaction)
    (hnn : ∀ a, 0 ≤ get_qfc_balance s a) (hpos : 0 < t.amount) (a : String) :
    0 ≤ get_qfc_balance (Blockchain.update_qfc_balances s t) a := by
  simp only [Blockchain.update_qfc_balances]
  by_cases hc : t.calculate_total_cost ≤ get_qfc_balance s t.sender
  · rw [if_pos hc]
    show 0 ≤ alistGet (alistSet (alistSet s.balances t.sender
      (get_qfc_balance s t.sender - t.calculate_total_cost)) t.recipient
      (get_qfc_balance s t.recipient + t.amount)) a
    rw [alistGet_set]
    by_cases hr : a = t.recipient
    · rw [if_pos hr]
      exact add_nonneg (hnn t.recipient) (le_of_lt hpos)
    · rw [if_neg hr, alistGet_set]
      by_cases hs : a = t.sender
      · rw [if_pos hs]
        exact sub_nonneg.mpr hc
      · rw [if_neg hs]
        exact hnn a
  · rw [if_neg hc]
    exact hnn a

/-- C9: submission returns `False` with no state mutated when the amount is
non-positive or the sender balance is below `total_cost()`, and any submission
outcome keeps every (previously non-negative) balance non-negative — the
sufficiency check runs before any mutation. -/
theorem C9_add_transaction_rejects_and_preserves_nonneg
    (s : QFCState) (t : Transaction) :
    ((t.amount ≤ 0 ∨ get_qfc_balance s t.sender < t.calculate_total_cost) →
       Blockchain.add_transaction s t = some (s, false)) ∧
    ((∀ a, 0 ≤ get_qfc_balance s a) →
       ∀ s2 r a, Blockchain.add_transaction s t = some (s2, r) →
         0 ≤ get_qfc_balance s2 a) := by
  constructor
  · intro hrej
    have hv : Blockchain.verify_transaction s t = false := by
      unfold Blockchain.verify_transaction
      by_cases h0 : t.amount ≤ 0
      · rw [if_pos h0]
      · rcases hrej with h | h
        · exact absurd h h0
        · rw [if_neg h0, if_pos h]
    unfold Blockchain.add_transaction
    rw [hv]
    rfl
  · intro hnn s2 r a heq
    by_cases hv : Blockchain.verify_transaction s t = true
    · obtain ⟨hpos, _⟩ := verify_transaction_true s t hv
      unfold Blockchain.add_transaction at heq
      rw [hv] at heq
      simp only [if_true] at heq
      cases hroute : get_shard_for_address s.num_shards t.sender with
      | none =>
          rw [hroute] at heq
          exact absurd heq (by simp)
      | some i =>
          rw [hroute] at heq
          injection heq with hpair
          rw [Prod.mk.injEq] at hpair
          obtain ⟨hs2, _⟩ := hpair
          rw [← hs2]
          have hnn1 : ∀ x, 0 ≤ get_qfc_balance
              (setShard s i ((shardAt s i).add_transaction t)) x := fun x => hnn x
          have hpos1 : 0 < t.amount := hpos
          exact update_qfc_balances_nonneg _ t hnn1 hpos1 a
    · have hv2 : Blockchain.verify_transaction s t = false :=
        Bool.not_eq_true _ ▸ Bool.of_not_eq_true hv
      unfold Blockchain.add_transaction at heq
      rw [hv2] at heq
      simp only [Bool.false_eq_true, if_false] at heq
      injection heq with hpair
      rw [Prod.mk.injEq] at hpair
      obtain ⟨hs2, _⟩ := hpair
      rw [← hs2]
      exact hnn a

/-- C9 witness: a non-positive-amount transaction against a funded,
non-negative table is rejected with the state unchanged, and the balances
stay non-negative. -/
theorem C9_add_transaction_witness :
    Blockchain.add_transaction c9State c9Tx = some (c9State, false) ∧
    (0 : ℚ) ≤ get_qfc_balance c9State "0a" ∧
    (0 : ℚ) ≤ get_qfc_balance c9State "1b" := by
  have hnn : ∀ a, 0 ≤ get_qfc_balance c9State a := by
    intro a
    show 0 ≤ alistGet [("0a", (100 : ℚ))] a
    unfold alistGet
    by_cases h : ("0a", (100 : ℚ)).1 = a
    · rw [if_pos h]
      norm_num
    · rw [if_neg h]
      exact le_refl 0
  have hamt : c9Tx.amount ≤ 0 := by
    show ((-5 : ℚ)) ≤ 0
    norm_num
  have hrej := (C9_add_transaction_rejects_and_preserves_nonneg c9State c9Tx).1
    (Or.inl hamt)
  have hpres := (C9_add_transaction_rejects_and_preserves_nonneg c9State c9Tx).2
    hnn c9State false "0a" hrej
  exact ⟨hrej, hpres, hnn "1b"⟩

/-- Every multiplier the `award_carbon_credits` dict can return is strictly
positive. -/
theorem energyMultiplier_find_pos (es : String) (mu : ℚ)
    (h : dictFind energyMultiplier es = some mu) : 0 < mu := by
  unfold dictFind energyMultiplier at h
  by_cases h1 : (("solar" : String) == es) = true
  · simp only [List.find?, h1, Option.map] at h
    injection h with h5
    rw [← h5]
    norm_num
  · by_cases h2 : (("wind" : String) == es) = true
    · simp only [List.find?, h1, h2, Option.map] at h
      injection h with h5
      rw [← h5]
      norm_num
    · by_cases h3 : (("hydro" : String) == es) = true
      · simp only [List.find?, h1, h2, h3, Option.map] at h
        injection h with h5
        rw [← h5]
        norm_num
      · by_cases h4 : (("geothermal" : String) == es) = true
        · simp only [List.find?, h1, h2, h3, h4, Option.map] at h
          injection h with h5
          rw [← h5]
          norm_num
        · simp only [List.find?, h1, h2, h3, h4, Option.map] at h
          exact absurd h (by simp)

/-- C10: carbon-credit accounting never drives a balance negative —
`award_carbon_credits` only ever adds a strictly positive credit to the
miner (leaving others untouched), `buy_credits`/`sell_credits` return `False`
and change nothing when the account's credit balance is below the requested
amount and otherwise deduct exactly the requested amount, and every operation
preserves non-negativity of all credit balances. -/
theorem C10_carbon_credits_nonnegative (g : GreenPoW) (m : CarbonCreditMarket)
    (who : String) (amount : ℚ) :
    (∀ es g2, g.award_carbon_credits who es = some g2 →
       ∃ c : ℚ, 0 < c ∧
         alistGet g2.carbon_credits who = alistGet g.carbon_credits who + c ∧
         ∀ a, a ≠ who → alistGet g2.carbon_credits a = alistGet g.carbon_credits a) ∧
    (alistGet g.carbon_credits who < amount →
       m.buy_credits g who amount = some (false, m, g) ∧
       m.sell_credits g who amount = some (false, m, g)) ∧
    (∀ m2 g2, m.buy_credits g who amount = some (true, m2, g2) →
       alistGet g2.carbon_credits who = alistGet g.carbon_credits who - amount) ∧
    (∀ m2 g2, m.sell_credits g who amount = some (true, m2, g2) →
       alistGet g2.carbon_credits who = alistGet g.carbon_credits who - amount) ∧
    ((∀ a, 0 ≤ alistGet g.carbon_credits a) →
       ∀ r m2 g2 a, (m.buy_credits g who amount = some (r, m2, g2) ∨
                     m.sell_credits g who amount = some (r, m2, g2)) →
         0 ≤ alistGet g2.carbon_credits a) ∧
    ((∀ a, 0 ≤ alistGet g.carbon_credits a) →
       ∀ es g2 a, g.award_carbon_credits who es = some g2 →
         0 ≤ alistGet g2.carbon_credits a) := by
  have haward : ∀ es g2, g.award_carbon_credits who es = some g2 →
      ∃ mu : ℚ, 0 < mu ∧
        g2.carbon_credits = alistSet g.carbon_credits who
          (alistGet g.carbon_credits who + 1 * mu) := by
    intro es g2 h
    unfold GreenPoW.award_carbon_credits at h
    cases hd : dictFind energyMultiplier es with
    | none =>
        rw [hd] at h
        exact absurd h (by simp)
    | some mu =>
        rw [hd] at h
        simp only [Option.map] at h
        injection h with hg2
        exact ⟨mu, energyMultiplier_find_pos es mu hd, hg2.symm ▸ rfl⟩
  have hbuy : ∀ r m2 g2, m.buy_credits g who amount = some (r, m2, g2) →
      (r = false ∧ g2 = g) ∨
      (r = true ∧ amount ≤ alistGet g.carbon_credits who ∧
        g2.carbon_credits = alistSet g.carbon_credits who
          (alistGet g.carbon_credits who - amount)) := by
    intro r m2 g2 h
    unfold CarbonCreditMarket.buy_credits at h
    by_cases hle : amount ≤ alistGet g.carbon_credits who
    · rw [if_pos hle] at h
      by_cases hhas : alistHas g.carbon_credits who = true
      · rw [if_pos hhas] at h
        injection h with hp
        rw [Prod.mk.injEq] at hp
        obtain ⟨hr, hp2⟩ := hp
        rw [Prod.mk.injEq] at hp2
        exact Or.inr ⟨hr.symm, hle, hp2.2.symm ▸ rfl⟩
      · rw [if_neg hhas] at h
        exact absurd h (by simp)
    · rw [if_neg hle] at h
      injection h with hp
      rw [Prod.mk.injEq] at hp
      obtain ⟨hr, hp2⟩ := hp
      rw [Prod.mk.injEq] at hp2
      exact Or.inl ⟨hr.symm, hp2.2.symm⟩
  have hsell : ∀ r m2 g2, m.sell_credits g who amount = some (r, m2, g2) →
      (r = false ∧ g2 = g) ∨
      (r = true ∧ amount ≤ alistGet g.carbon_credits who ∧
        g2.carbon_credits = alistSet g.carbon_credits who
          (alistGet g.carbon_credits who - amount)) := by
    intro r m2 g2 h
    unfold CarbonCreditMarket.sell_credits at h
    by_cases hle : amount ≤ alistGet g.carbon_credits who
    · rw [if_pos hle] at h
      by_cases hhas : alistHas g.carbon_credits who = true
      · rw [if_pos hhas] at h
        injection h with hp
        rw [Prod.mk.injEq] at hp
        obtain ⟨hr, hp2⟩ := hp
        rw [Prod.mk.injEq] at hp2
        exact Or.inr ⟨hr.symm, hle, hp2.2.symm ▸ rfl⟩
      · rw [if_neg hhas] at h
        exact absurd h (by simp)
    · rw [if_neg hle] at h
      injection h with hp
      rw [Prod.mk.injEq] at hp
      obtain ⟨hr, hp2⟩ := hp
      rw [Prod.mk.injEq] at hp2
      exact Or.inl ⟨hr.symm, hp2.2.symm⟩
  refine ⟨?_, ?_, ?_, ?_, ?_, ?_⟩
  · intro es g2 h
    obtain ⟨mu, hmu, hcc⟩ := haward es g2 h
    refine ⟨1 * mu, by rwa [one_mul], ?_, ?_⟩
    · rw [hcc, alistGet_set, if_pos rfl]
    · intro a ha
      rw [hcc, alistGet_set, if_neg ha]
  · intro hlt
    have hnle : ¬ amount ≤ alistGet g.carbon_credits who := not_le.mpr hlt
    constructor
    · unfold CarbonCreditMarket.buy_credits
      rw [if_neg hnle]
    · unfold CarbonCreditMarket.sell_credits
      rw [if_neg hnle]
  · intro m2 g2 h
    rcases hbuy true m2 g2 h with ⟨hr, _⟩ | ⟨_, _, hcc⟩
    · exact absurd hr (by simp)
    · rw [hcc, alistGet_set, if_pos rfl]
  · intro m2 g2 h
    rcases hsell true m2 g2 h with ⟨hr, _⟩ | ⟨_, _, hcc⟩
    · exact absurd hr (by simp)
    · rw [hcc, alistGet_set, if_pos rfl]
  · intro hnn r m2 g2 a h
    have hcase : (r = false ∧ g2 = g) ∨
        (r = true ∧ amount ≤ alistGet g.carbon_credits who ∧
          g2.carbon_credits = alistSet g.carbon_credits who
            (alistGet g.carbon_credits who - amount)) := by
      rcases h with h | h
      · exact hbuy r m2 g2 h
      · exact hsell r m2 g2 h
    rcases hcase with ⟨_, hg2⟩ | ⟨_, hle, hcc⟩
    · rw [hg2]
      exact hnn a
    · rw [hcc, alistGet_set]
      by_cases ha : a = who
      · rw [if_pos ha]
        exact sub_nonneg.mpr hle
      · rw [if_neg ha]
        exact hnn a
  · intro hnn es g2 a h
    obtain ⟨mu, hmu, hcc⟩ := haward es g2 h
    rw [hcc, alistGet_set]
    by_cases ha : a = who
    · rw [if_pos ha]
      have := hnn who
      positivity
    · rw [if_neg ha]
      exact hnn a

/-- C10 witness: with 2 credits on account `"mX"`, buying 3 is refused with
nothing changed, buying 1 deducts exactly 1, and balances (including an
unrelated account and the post-award balance after a solar award) stay
non-negative. -/
theorem C10_carbon_credits_nonnegative_witness :
    CarbonCreditMarket.init.buy_credits c10G "mX" 3 =
      some (false, CarbonCreditMarket.init, c10G) ∧
    alistGet c10G2.carbon_credits "mX" = alistGet c10G.carbon_credits "mX" - 1 ∧
    (0 : ℚ) ≤ alistGet c10G2.carbon_credits "mX" ∧
    (0 : ℚ) ≤ alistGet c10G2.carbon_credits "other" ∧
    (0 : ℚ) ≤ alistGet c10GA.carbon_credits "mX" := by
  have hT := C10_carbon_credits_nonnegative c10G CarbonCreditMarket.init "mX" 3
  have hT1 := C10_carbon_credits_nonnegative c10G CarbonCreditMarket.init "mX" 1
  have hlt : alistGet c10G.carbon_credits "mX" < 3 := by with_unfolding_all decide
  have hnn : ∀ a, 0 ≤ alistGet c10G.carbon_credits a := by
    intro a
    show 0 ≤ alistGet [("mX", (2 : ℚ))] a
    unfold alistGet
    by_cases h : ("mX", (2 : ℚ)).1 = a
    · rw [if_pos h]
      norm_num
    · rw [if_neg h]
      exact le_refl 0
  have hbuyeq : CarbonCreditMarket.init.buy_credits c10G "mX" 1 =
      some (true, c10M2, c10G2) := by
    with_unfolding_all rfl
  have haw : c10G.award_carbon_credits "mX" "solar" = some c10GA := by
    with_unfolding_all rfl
  refine ⟨(hT.2.1 hlt).1, hT1.2.2.1 c10M2 c10G2 hbuyeq, ?_, ?_, ?_⟩
  · exact hT1.2.2.2.2.1 hnn true c10M2 c10G2 "mX" (Or.inl hbuyeq)
  · exact hT1.2.2.2.2.1 hnn true c10M2 c10G2 "other" (Or.inl hbuyeq)
  · exact hT.2.2.2.2.2 hnn "solar" c10GA "mX" haw
